import Mathlib

/-!
Shallow embedding of the tsuru event package (`src/event/event.go`).

Time instants and durations are modelled as natural numbers; the mongodb
store is modelled as a list of persisted event records whose `_id` field
is the polymorphic `EventId`.  Store operations mirror mgo semantics:
`Insert` fails on a duplicate `_id`, `FindId`/`Find` return the first
matching document, `Update` modifies a single matching document, and
`RemoveId` removes a single document.
-/

namespace Tsuru

abbrev Time := Nat

def lockUpdateInterval : Nat := 30

def lockExpireTimeout : Nat := 300

structure Target where
  name : String := ""
  value : String := ""
  deriving DecidableEq

def Target.isValid (t : Target) : Bool :=
  t.name != "" && t.value != ""

/-- EventId mirrors the Go `eventId` struct as serialized by `GetBSON`:
if `ObjId` is non-empty the opaque id is used, otherwise the target pair. -/
inductive EventId where
  | target (t : Target)
  | objId (o : String)
  deriving DecidableEq

structure CancelInfo where
  owner : String := ""
  startTime : Time := 0
  ackTime : Time := 0
  reason : String := ""
  asked : Bool := false
  canceled : Bool := false
  deriving DecidableEq

def OwnerTypeUser : String := "user"

def OwnerTypeApp : String := "app"

def OwnerTypeInternal : String := "internal"

def KindTypePermission : String := "permission"

def KindTypeInternal : String := "internal"

/-- Owner type is a string in the source (`ownerType`); `RawOwner` values may
carry arbitrary strings, so we keep the field as `String`. -/
structure Owner where
  type : String := ""
  name : String := ""
  deriving DecidableEq

structure Kind where
  type : String := ""
  name : String := ""
  deriving DecidableEq

/-- EventData mirrors the persisted `eventData` record.  Custom payloads are
opaque; we model them as optional strings.  Fields that are zero-valued in Go
are given the corresponding defaults. -/
structure EventData where
  id : EventId
  uniqueID : String
  startTime : Time := 0
  endTime : Option Time := none
  target : Target := {}
  startCustomData : Option String := none
  endCustomData : Option String := none
  otherCustomData : Option String := none
  kind : Kind := {}
  owner : Owner := {}
  cancelable : Bool := false
  running : Bool := false
  lockUpdateTime : Time := 0
  error : String := ""
  log : String := ""
  cancelInfo : CancelInfo := {}
  removeDate : Option Time := none
  deriving DecidableEq

/-- Event couples the persisted data with the in-memory log buffer. -/
structure Event where
  eventData : EventData
  logBuffer : String := ""
  deriving DecidableEq

structure ThrottlingSpec where
  targetName : String := ""
  kindName : String := ""
  max : Int := 0
  time : Int := 0
  deriving DecidableEq

inductive EventError where
  | notCancelable
  | eventNotFound
  | validation (msg : String)
  | throttled (spec : ThrottlingSpec) (target : Target)
  | eventLocked (event : EventData)
  | storeDup
  | storeNotFound
  deriving DecidableEq

def ErrNotCancelable : EventError := .notCancelable

def ErrEventNotFound : EventError := .eventNotFound

def ErrNoTarget : EventError := .validation "event target is mandatory"

def ErrNoKind : EventError := .validation "event kind is mandatory"

def ErrNoOwner : EventError := .validation "event owner is mandatory"

def ErrNoOpts : EventError := .validation "event opts is mandatory"

def ErrNoInternalKind : EventError := .validation "event internal kind is mandatory"

def ErrInvalidOwner : EventError := .validation "event owner must not be set on internal events"

def ErrInvalidKind : EventError := .validation "event kind must not be set on internal events"

/-- Lookup in a Go-map modelled as an association list. -/
def mapLookup {α : Type} (m : List (String × α)) (k : String) : Option α :=
  (m.find? (fun p => p.1 == k)).map Prod.snd

/-- Assignment `m[k] = v` in a Go-map modelled as an association list:
the new binding shadows and drops any previous binding of `k`. -/
def mset {α : Type} (m : List (String × α)) (k : String) (v : α) : List (String × α) :=
  (k, v) :: m.filter (fun p => p.1 != k)

abbrev ThrottlingInfo := List (String × ThrottlingSpec)

/-- Registry key chosen by `SetThrottling`. -/
def throttlingKey (spec : ThrottlingSpec) : String :=
  if spec.kindName != "" then spec.targetName ++ "_" ++ spec.kindName else spec.targetName

def SetThrottling (info : ThrottlingInfo) (spec : ThrottlingSpec) : ThrottlingInfo :=
  mset info (throttlingKey spec) spec

def getThrottling (info : ThrottlingInfo) (t : Target) (k : Kind) : Option ThrottlingSpec :=
  match mapLookup info (t.name ++ "_" ++ k.name) with
  | some s => some s
  | none => mapLookup info t.name

abbrev Store := List EventData

def findId (store : Store) (id : EventId) : Option EventData :=
  store.find? (fun r => r.id == id)

def hasId (store : Store) (id : EventId) : Bool :=
  store.any (fun r => r.id == id)

/-- mgo `Update`: modify the first document matching the selector. -/
def updateFirst (p : EventData → Bool) (f : EventData → EventData) : Store → Store
  | [] => []
  | r :: rs => if p r then f r :: rs else r :: updateFirst p f rs

inductive StoreOp where
  | insertOp (r : EventData)
  | removeIdOp (id : EventId)
  deriving DecidableEq

def applyOp (store : Store) : StoreOp → Store
  | .insertOp r => if hasId store r.id then store else store ++ [r]
  | .removeIdOp id => store.eraseP (fun r => r.id == id)

def applyOps (store : Store) (ops : List StoreOp) : Store :=
  ops.foldl applyOp store

/-- Finalized payload computed by `Event.done` (non-abort path): error string,
end time, custom data, frozen log, re-read `otherCustomData`, and the id
switched to the permanent unique id. -/
def doneFinal (e : Event) (evtErr : Option String) (customData : Option String)
    (store : Store) (now : Time) : EventData :=
  let errStr :=
    match evtErr with
    | some msg => msg
    | none =>
      if e.eventData.cancelInfo.canceled then "canceled by user request" else e.eventData.error
  let other :=
    match findId store e.eventData.id with
    | some dbEvt => dbEvt.otherCustomData
    | none => e.eventData.otherCustomData
  { e.eventData with
      error := errStr
      endTime := some now
      endCustomData := customData
      running := false
      log := e.logBuffer
      otherCustomData := other
      id := .objId e.eventData.uniqueID }

/-- Store operations issued by `Event.done`, in execution order.  On the
non-abort path the insert of the historical row happens first and the
deferred `RemoveId` runs last, with its argument captured before the id is
reassigned. -/
def doneOps (e : Event) (evtErr : Option String) (customData : Option String)
    (abort : Bool) (store : Store) (now : Time) : List StoreOp :=
  if abort then [.removeIdOp e.eventData.id]
  else [.insertOp (doneFinal e evtErr customData store now), .removeIdOp e.eventData.id]

/-- Return value of `Event.done`: the abort path returns the `RemoveId`
result, the normal path returns the `Insert` result (the deferred remove
does not affect it). -/
def doneRes (e : Event) (evtErr : Option String) (customData : Option String)
    (abort : Bool) (store : Store) (now : Time) : Except EventError Unit :=
  if abort then
    if hasId store e.eventData.id then .ok () else .error .storeNotFound
  else
    if hasId store (.objId e.eventData.uniqueID) then .error .storeDup else .ok ()

def done (e : Event) (evtErr : Option String) (customData : Option String)
    (abort : Bool) (store : Store) (now : Time) : Except EventError Unit × Store :=
  (doneRes e evtErr customData abort store now,
   applyOps store (doneOps e evtErr customData abort store now))

def Event.Done (e : Event) (evtErr : Option String) (store : Store) (now : Time) :
    Except EventError Unit × Store :=
  done e evtErr none false store now

def Event.DoneCustomData (e : Event) (evtErr : Option String) (customData : Option String)
    (store : Store) (now : Time) : Except EventError Unit × Store :=
  done e evtErr customData false store now

def Event.Abort (e : Event) (store : Store) (now : Time) : Except EventError Unit × Store :=
  done e none none true store now

def expiredErrorMsg (delta : Nat) : String :=
  "event expired, no update for " ++ toString delta

/-- checkIsExpired: load the conflicting row; if its lock is stale, finalize
it on the holder's behalf and report success.  Returns the flag together
with the store left behind by the reclamation. -/
def checkIsExpired (store : Store) (now : Time) (id : EventId) : Bool × Store :=
  match findId store id with
  | none => (false, store)
  | some existing =>
    if existing.lockUpdateTime + lockExpireTimeout < now then
      (true,
       (Event.Done { eventData := existing, logBuffer := "" }
          (some (expiredErrorMsg (now - existing.lockUpdateTime))) store now).2)
    else (false, store)

/-- Token interface supplied by the auth module. -/
structure Token where
  isAppToken : Bool := false
  appName : String := ""
  userName : String := ""
  deriving DecidableEq

/-- Permission scheme interface: only `FullName` is consumed. -/
structure PermissionScheme where
  fullName : String := ""
  deriving DecidableEq

structure Opts where
  target : Target := {}
  kind : Option PermissionScheme := none
  internalKind : String := ""
  owner : Option Token := none
  rawOwner : Owner := {}
  cancelable : Bool := false
  customData : Option String := none
  deriving DecidableEq

/-- Kind resolution in `newEvt`: `none` encodes the `ErrNoKind` failure. -/
def resolveKind (opts : Opts) : Option Kind :=
  match opts.kind with
  | none =>
    if opts.internalKind == "" then none
    else some { type := KindTypeInternal, name := opts.internalKind }
  | some ps => some { type := KindTypePermission, name := ps.fullName }

/-- Owner resolution in `newEvt`. -/
def resolveOwner (opts : Opts) : Owner :=
  match opts.owner with
  | none =>
    if opts.rawOwner.name != "" && opts.rawOwner.type != "" then opts.rawOwner
    else { type := OwnerTypeInternal, name := "" }
  | some tok =>
    if tok.isAppToken then { type := OwnerTypeApp, name := tok.appName }
    else { type := OwnerTypeUser, name := tok.userName }

/-- Freshly drafted event inserted by `newEvt`. -/
def draftEvent (opts : Opts) (k : Kind) (o : Owner) (now : Time) (newId : String) : EventData :=
  { id := .target opts.target
    uniqueID := newId
    target := opts.target
    startTime := now
    kind := k
    owner := o
    startCustomData := opts.customData
    lockUpdateTime := now
    running := true
    cancelable := opts.cancelable }

/-- Count query used by the throttling admission check: same target, start
time inside the spec's window, restricted to the spec's kind when the spec
is kind-scoped. -/
def throttleCount (store : Store) (t : Target) (spec : ThrottlingSpec) (now : Time) : Nat :=
  (store.filter (fun r =>
    r.target.name == t.name && r.target.value == t.value &&
    decide ((now : Int) - spec.time < (r.startTime : Int)) &&
    (spec.kindName == "" || r.kind.name == spec.kindName))).length

/-- Second iteration of the insert loop of `newEvt` (`i = 1`, so
`i >= maxRetries`): a persisting duplicate-key conflict yields
`ErrEventLocked` with a snapshot of the current holder. -/
def insertRetry (store1 : Store) (evt : EventData) :
    Except EventError EventData × Store :=
  if hasId store1 evt.id then
    match findId store1 evt.id with
    | some existing => (.error (.eventLocked existing), store1)
    | none => (.error .storeNotFound, store1)
  else (.ok evt, store1 ++ [evt])

/-- Insert loop of `newEvt` (`maxRetries = 1`, two iterations).  On the first
duplicate-key conflict the expiry check may reclaim the stale lock; the
insert is attempted once more on the store the check left behind. -/
def insertLoop (store : Store) (now : Time) (evt : EventData) :
    Except EventError EventData × Store :=
  if hasId store evt.id then
    insertRetry (checkIsExpired store now evt.id).2 evt
  else (.ok evt, store ++ [evt])

def newEvt (info : ThrottlingInfo) (store : Store) (now : Time) (newId : String)
    (opts : Option Opts) : Except EventError EventData × Store :=
  match opts with
  | none => (.error ErrNoOpts, store)
  | some opts =>
    if !opts.target.isValid then (.error ErrNoTarget, store)
    else
      match resolveKind opts with
      | none => (.error ErrNoKind, store)
      | some k =>
        match getThrottling info opts.target k with
        | some s =>
          if s.max > 0 && s.time > 0 &&
              decide ((s.max : Int) ≤ (throttleCount store opts.target s now : Int)) then
            (.error (.throttled s opts.target), store)
          else insertLoop store now (draftEvent opts k (resolveOwner opts) now newId)
        | none => insertLoop store now (draftEvent opts k (resolveOwner opts) now newId)

def New (info : ThrottlingInfo) (store : Store) (now : Time) (newId : String)
    (opts : Option Opts) : Except EventError EventData × Store :=
  match opts with
  | none => (.error ErrNoOpts, store)
  | some o =>
    if o.owner == none && o.rawOwner.name == "" && o.rawOwner.type == "" then
      (.error ErrNoOwner, store)
    else if o.kind == none then (.error ErrNoKind, store)
    else newEvt info store now newId (some o)

def NewInternal (info : ThrottlingInfo) (store : Store) (now : Time) (newId : String)
    (opts : Option Opts) : Except EventError EventData × Store :=
  match opts with
  | none => (.error ErrNoOpts, store)
  | some o =>
    if o.owner != none then (.error ErrInvalidOwner, store)
    else if o.kind != none then (.error ErrInvalidKind, store)
    else if o.internalKind == "" then (.error ErrNoInternalKind, store)
    else newEvt info store now newId (some o)

/-- AckCancel: guard on the in-memory handle, then find-and-modify the live
row that already has `cancelinfo.asked = true`, setting the ack time and the
canceled flag. -/
def AckCancel (e : Event) (store : Store) (now : Time) :
    Except EventError EventData × Store :=
  if !e.eventData.cancelable || !e.eventData.running then (.error ErrNotCancelable, store)
  else
    let sel := fun r : EventData => r.id == e.eventData.id && r.cancelInfo.asked
    match store.find? sel with
    | none => (.error ErrEventNotFound, store)
    | some row =>
      let row' :=
        { row with cancelInfo := { row.cancelInfo with ackTime := now, canceled := true } }
      (.ok row', updateFirst sel (fun r =>
        { r with cancelInfo := { r.cancelInfo with ackTime := now, canceled := true } }) store)

inductive TimeCond where
  | gte (t : Time)
  | lte (t : Time)
  deriving DecidableEq

inductive QueryVal where
  | str (s : String)
  | boolV (b : Bool)
  | existsFalse
  | timeAnd (parts : List TimeCond)
  | raw (payload : String)
  deriving DecidableEq

abbrev QueryMap := List (String × QueryVal)

/-- Merge of the `Raw` escape hatch: each entry is assigned into the query
map last, overwriting synthesized keys. -/
def applyRaw (raw : Option QueryMap) (q : QueryMap) : QueryMap :=
  match raw with
  | some m => m.foldl (fun acc kv => mset acc kv.1 kv.2) q
  | none => q

structure Filter where
  target : Target := {}
  kindType : String := ""
  kindName : String := ""
  ownerType : String := ""
  ownerName : String := ""
  since : Time := 0
  untilTime : Time := 0
  running : Option Bool := none
  includeRemoved : Bool := false
  raw : Option QueryMap := none
  limit : Int := 0
  skip : Int := 0
  sort : String := ""
  deriving DecidableEq

def Filter.toQuery (f : Filter) : QueryMap :=
  let q : QueryMap := []
  let q := if f.target.name != "" then mset q "target.name" (.str f.target.name) else q
  let q := if f.target.value != "" then mset q "target.value" (.str f.target.value) else q
  let q := if f.kindType != "" then mset q "kind.type" (.str f.kindType) else q
  let q := if f.kindName != "" then mset q "kind.name" (.str f.kindName) else q
  let q := if f.ownerType != "" then mset q "owner.type" (.str f.ownerType) else q
  let q := if f.ownerName != "" then mset q "owner.name" (.str f.ownerName) else q
  let timeParts : List TimeCond :=
    (if f.since != 0 then [.gte f.since] else []) ++
    (if f.untilTime != 0 then [.lte f.untilTime] else [])
  let q := if timeParts != [] then mset q "$and" (.timeAnd timeParts) else q
  let q :=
    match f.running with
    | some b => mset q "running" (.boolV b)
    | none => q
  let q := if !f.includeRemoved then mset q "removedate" .existsFalse else q
  applyRaw f.raw q

def matchesTime (r : EventData) : TimeCond → Bool
  | .gte t => t ≤ r.startTime
  | .lte t => r.startTime ≤ t

/-- Interpretation of a query entry against a document.  Entries the model
cannot interpret (raw escape-hatch payloads) are treated as matching. -/
def matchesEntry (r : EventData) : String × QueryVal → Bool
  | ("target.name", .str s) => r.target.name == s
  | ("target.value", .str s) => r.target.value == s
  | ("kind.type", .str s) => r.kind.type == s
  | ("kind.name", .str s) => r.kind.name == s
  | ("owner.type", .str s) => r.owner.type == s
  | ("owner.name", .str s) => r.owner.name == s
  | ("running", .boolV b) => r.running == b
  | ("removedate", .existsFalse) => r.removeDate == none
  | ("$and", .timeAnd parts) => parts.all (matchesTime r)
  | _ => true

def matchesQuery (q : Option QueryMap) (r : EventData) : Bool :=
  match q with
  | none => true
  | some m => m.all (matchesEntry r)

/-- Parameters of the store find built by `List`. -/
structure FindParams where
  query : Option QueryMap := none
  sort : String := "-starttime"
  limit : Int := 100
  skip : Int := 0
  deriving DecidableEq

def buildFind (filter : Option Filter) : FindParams :=
  match filter with
  | none => { query := none, sort := "-starttime", limit := 100, skip := 0 }
  | some f =>
    { query := some f.toQuery
      sort := if f.sort != "" then f.sort else "-starttime"
      limit := if f.limit != 0 then f.limit else 100
      skip := if f.skip > 0 then f.skip else 0 }

def startTimeDesc (a b : EventData) : Prop := b.startTime ≤ a.startTime

instance : DecidableRel startTimeDesc := fun a b => Nat.decLe b.startTime a.startTime

def startTimeAsc (a b : EventData) : Prop := a.startTime ≤ b.startTime

instance : DecidableRel startTimeAsc := fun a b => Nat.decLe a.startTime b.startTime

def applySort (sort : String) (l : List EventData) : List EventData :=
  if sort = "-starttime" then l.insertionSort startTimeDesc
  else if sort = "starttime" then l.insertionSort startTimeAsc
  else l

def applySkip (skip : Int) (l : List EventData) : List EventData :=
  if skip > 0 then l.drop skip.toNat else l

def applyLimit (limit : Int) (l : List EventData) : List EventData :=
  if limit > 0 then l.take limit.toNat else l

def runFind (store : Store) (p : FindParams) : List EventData :=
  applyLimit p.limit
    (applySkip p.skip (applySort p.sort (store.filter (fun r => matchesQuery p.query r))))

def ListEvents (store : Store) (filter : Option Filter) : List EventData :=
  runFind store (buildFind filter)

inductive SpinMsg where
  | add (t : Target)
  | remove (t : Target)
  | timeout
  deriving DecidableEq

/-- One wake of the heartbeat worker loop: apply the received message to the
held set, then issue the store update refreshing `lockupdatetime` — which,
being an mgo `Update`, modifies a single document matching the
`_id $in heldSet` selector. -/
def spinStep (heldSet : List Target) (msg : SpinMsg) (store : Store) (now : Time) :
    List Target × Store :=
  let set' :=
    match msg with
    | .add t => if heldSet.contains t then heldSet else heldSet ++ [t]
    | .remove t => heldSet.filter (fun x => x ≠ t)
    | .timeout => heldSet
  let sel := fun r : EventData => set'.any (fun t => r.id == EventId.target t)
  (set', updateFirst sel (fun r => { r with lockUpdateTime := now }) store)

/-! Helper lemmas about the store and map primitives. -/

theorem find_middle {α : Type} (p : α → Bool) (pre post : List α) (x : α)
    (hpre : ∀ r ∈ pre, p r = false) (hx : p x = true) :
    (pre ++ x :: post).find? p = some x := by
  induction pre with
  | nil => simp [List.find?_cons, hx]
  | cons a as ih =>
    have ha : p a = false := hpre a (List.mem_cons_self a as)
    simp only [List.cons_append, List.find?_cons, ha, cond_false]
    exact ih (fun r hr => hpre r (List.mem_cons_of_mem a hr))

theorem any_middle {α : Type} (p : α → Bool) (pre post : List α) (x : α)
    (hx : p x = true) : (pre ++ x :: post).any p = true :=
  List.any_eq_true.mpr ⟨x, by simp, hx⟩

theorem any_none {α : Type} (p : α → Bool) (l : List α)
    (h : ∀ r ∈ l, p r = false) : l.any p = false := by
  rw [List.any_eq_false]
  intro x hx
  simp [h x hx]

theorem eraseP_middle {α : Type} (p : α → Bool) (pre post : List α) (x : α)
    (hpre : ∀ r ∈ pre, p r = false) (hx : p x = true) :
    (pre ++ x :: post).eraseP p = pre ++ post := by
  induction pre with
  | nil => simp [List.eraseP_cons, hx]
  | cons a as ih =>
    have ha : p a = false := hpre a (List.mem_cons_self a as)
    simp only [List.cons_append, List.eraseP_cons, ha, cond_false, List.cons.injEq, true_and]
    exact ih (fun r hr => hpre r (List.mem_cons_of_mem a hr))

theorem updateFirst_middle (p : EventData → Bool) (f : EventData → EventData)
    (pre post : Store) (x : EventData)
    (hpre : ∀ r ∈ pre, p r = false) (hx : p x = true) :
    updateFirst p f (pre ++ x :: post) = pre ++ f x :: post := by
  induction pre with
  | nil => simp [updateFirst, hx]
  | cons a as ih =>
    have ha : p a = false := hpre a (List.mem_cons_self a as)
    simp only [List.cons_append, updateFirst, ha, Bool.false_eq_true, if_false,
      List.cons.injEq, true_and]
    exact ih (fun r hr => hpre r (List.mem_cons_of_mem a hr))

theorem mapLookup_mset_self {α : Type} (m : List (String × α)) (k : String) (v : α) :
    mapLookup (mset m k v) k = some v := by
  simp [mapLookup, mset, List.find?_cons]

theorem find_key_filter {α : Type} (l : List (String × α)) (k k' : String) (h : k ≠ k') :
    (l.filter (fun p => p.1 != k')).find? (fun p => p.1 == k) =
      l.find? (fun p => p.1 == k) := by
  induction l with
  | nil => rfl
  | cons q rest ih =>
    by_cases hq : q.1 = k
    · have h1 : (q.1 != k') = true := by simp [hq, h]
      have h2 : (q.1 == k) = true := by simp [hq]
      simp [List.filter_cons, h1, List.find?_cons, h2]
    · by_cases h2 : q.1 = k'
      · have h3 : (q.1 != k') = false := by simp [h2]
        have h4 : (q.1 == k) = false := by simp [hq]
        simp [List.filter_cons, h3, List.find?_cons, h4, ih]
      · have h3 : (q.1 != k') = true := by simp [h2]
        have h4 : (q.1 == k) = false := by simp [hq]
        simp [List.filter_cons, h3, List.find?_cons, h4, ih]

theorem mapLookup_mset_ne {α : Type} (m : List (String × α)) (k k' : String) (v : α)
    (h : k ≠ k') : mapLookup (mset m k' v) k = mapLookup m k := by
  have h1 : ((k', v).1 == k) = false := by simp [Ne.symm h]
  simp only [mapLookup, mset, List.find?_cons, h1, cond_false]
  rw [find_key_filter _ _ _ h]

theorem mapLookup_foldl_mset_nmem {α : Type} (m : List (String × α))
    (base : List (String × α)) (k : String) (h : k ∉ m.map Prod.fst) :
    mapLookup (m.foldl (fun acc kv => mset acc kv.1 kv.2) base) k = mapLookup base k := by
  induction m generalizing base with
  | nil => rfl
  | cons kv rest ih =>
    simp only [List.map_cons, List.mem_cons, not_or] at h
    simp only [List.foldl_cons]
    rw [ih _ h.2, mapLookup_mset_ne _ _ _ _ h.1]

theorem mapLookup_foldl_mset_mem {α : Type} (m : List (String × α))
    (base : List (String × α)) (k : String) (v : α)
    (hnd : (m.map Prod.fst).Nodup) (hmem : (k, v) ∈ m) :
    mapLookup (m.foldl (fun acc kv => mset acc kv.1 kv.2) base) k = some v := by
  induction m generalizing base with
  | nil => cases hmem
  | cons kv rest ih =>
    simp only [List.map_cons, List.nodup_cons] at hnd
    simp only [List.foldl_cons]
    rcases List.mem_cons.mp hmem with heq | hmem'
    · subst heq
      rw [mapLookup_foldl_mset_nmem rest _ k hnd.1, mapLookup_mset_self]
    · exact ih _ hnd.2 hmem'

theorem mset_mset_same {α : Type} (m : List (String × α)) (k : String) (v1 v2 : α) :
    mset (mset m k v1) k v2 = mset m k v2 := by
  simp [mset, List.filter_cons, List.filter_filter]

/-! Claim theorems. -/

/-- C9: `SetThrottling` with a spec `{TargetName := "a", KindName := "b"}` and
`SetThrottling` with a spec `{TargetName := "a_b", KindName := ""}` both write
the registry key `"a_b"`; whichever call happens last silently overwrites the
other (in either order), and a subsequent `getThrottling` — whether the
kind-scoped lookup for target `"a"` and kind `"b"`, or the fallback lookup for
target `"a_b"` with an unregistered kind — returns the single surviving entry,
so the two configurations are indistinguishable to every lookup. -/
theorem setThrottling_key_collision :
    ∀ (m1 t1 m2 t2 : Int) (info : ThrottlingInfo) (tv kt : String),
      throttlingKey ⟨"a", "b", m1, t1⟩ = "a_b" ∧
      throttlingKey ⟨"a_b", "", m2, t2⟩ = "a_b" ∧
      SetThrottling (SetThrottling info ⟨"a", "b", m1, t1⟩) ⟨"a_b", "", m2, t2⟩ =
        SetThrottling info ⟨"a_b", "", m2, t2⟩ ∧
      SetThrottling (SetThrottling info ⟨"a_b", "", m2, t2⟩) ⟨"a", "b", m1, t1⟩ =
        SetThrottling info ⟨"a", "b", m1, t1⟩ ∧
      getThrottling (SetThrottling [] ⟨"a_b", "", m2, t2⟩) ⟨"a", tv⟩ ⟨kt, "b"⟩ =
        some ⟨"a_b", "", m2, t2⟩ ∧
      getThrottling (SetThrottling [] ⟨"a", "b", m1, t1⟩) ⟨"a_b", tv⟩ ⟨kt, "c"⟩ =
        some ⟨"a", "b", m1, t1⟩ := by
  intro m1 t1 m2 t2 info tv kt
  refine ⟨rfl, rfl, ?_, ?_, rfl, rfl⟩
  · show mset (mset info (throttlingKey ⟨"a", "b", m1, t1⟩) _) (throttlingKey ⟨"a_b", "", m2, t2⟩) _ = _
    rw [show throttlingKey ⟨"a", "b", m1, t1⟩ = "a_b" from rfl,
        show throttlingKey ⟨"a_b", "", m2, t2⟩ = "a_b" from rfl]
    exact mset_mset_same info "a_b" _ _
  · show mset (mset info (throttlingKey ⟨"a_b", "", m2, t2⟩) _) (throttlingKey ⟨"a", "b", m1, t1⟩) _ = _
    rw [show throttlingKey ⟨"a", "b", m1, t1⟩ = "a_b" from rfl,
        show throttlingKey ⟨"a_b", "", m2, t2⟩ = "a_b" from rfl]
    exact mset_mset_same info "a_b" _ _

def heartTargetA : Target := ⟨"app", "a"⟩

def heartTargetB : Target := ⟨"app", "b"⟩

def heartRowA : EventData :=
  { id := .target heartTargetA, uniqueID := "ua", target := heartTargetA,
    running := true, lockUpdateTime := 0 }

def heartRowB : EventData :=
  { id := .target heartTargetB, uniqueID := "ub", target := heartTargetB,
    running := true, lockUpdateTime := 0 }

/-- C5: the heartbeat worker's wake is claimed to refresh `lockUpdateTime` on
every held target's live row, but the store call in `lockUpdater.spin` is an
mgo `Update` — it modifies a single document matching the `$in` selector.
With two held targets whose live rows both carry `lockUpdateTime = 0`, a
timeout wake at time 100 refreshes only the first row; the second held
target's row keeps `lockUpdateTime = 0`. -/
theorem spin_refreshes_only_first_row :
    spinStep [heartTargetA, heartTargetB] .timeout [heartRowA, heartRowB] 100 =
      ([heartTargetA, heartTargetB], [{ heartRowA with lockUpdateTime := 100 }, heartRowB]) ∧
    (spinStep [heartTargetA, heartTargetB] .timeout [heartRowA, heartRowB] 100).2.map
        (fun r => r.lockUpdateTime) = [100, 0] :=
  ⟨rfl, rfl⟩

def i6Opts : Opts :=
  { target := ⟨"app", "x"⟩, kind := some ⟨"app.update"⟩, owner := none,
    rawOwner := { type := "user", name := "" } }

/-- C4 (counterexample): `New` accepts an Opts whose `RawOwner` has only
`Type` set (the owner-presence validation passes because `RawOwner.Type` is
non-empty), yet `newEvt` then discards the partially-specified raw owner and
defaults to the internal owner — creating an event that pairs a `permission`
kind with an `internal` owner, contradicting the claim. -/
theorem new_pairs_permission_kind_with_internal_owner :
    (New [] [] 0 "oid1" (some i6Opts)).1 =
      .ok { id := .target ⟨"app", "x"⟩, uniqueID := "oid1", target := ⟨"app", "x"⟩,
            startTime := 0, kind := ⟨KindTypePermission, "app.update"⟩,
            owner := ⟨OwnerTypeInternal, ""⟩, running := true, lockUpdateTime := 0 } ∧
    KindTypePermission = "permission" ∧ OwnerTypeInternal = "internal" :=
  ⟨rfl, rfl, rfl⟩

theorem insertRetry_ok_shape {store1 : Store} {evt res : EventData} {store' : Store}
    (h : insertRetry store1 evt = (.ok res, store')) : res = evt := by
  unfold insertRetry at h
  split at h
  · split at h <;> simp_all
  · simp only [Prod.mk.injEq, Except.ok.injEq] at h
    exact h.1.symm

theorem insertLoop_ok_shape {store : Store} {now : Time} {evt res : EventData} {store' : Store}
    (h : insertLoop store now evt = (.ok res, store')) : res = evt := by
  unfold insertLoop at h
  split at h
  · exact insertRetry_ok_shape h
  · simp only [Prod.mk.injEq, Except.ok.injEq] at h
    exact h.1.symm

theorem newEvt_ok_shape {info : ThrottlingInfo} {store : Store} {now : Time} {newId : String}
    {o : Opts} {evt : EventData} {store' : Store}
    (h : newEvt info store now newId (some o) = (.ok evt, store')) :
    ∃ k, resolveKind o = some k ∧ evt = draftEvent o k (resolveOwner o) now newId := by
  simp only [newEvt] at h
  split at h
  · simp at h
  · split at h
    · simp at h
    · rename_i k hk
      split at h
      · split at h
        · simp at h
        · exact ⟨k, hk, insertLoop_ok_shape h⟩
      · exact ⟨k, hk, insertLoop_ok_shape h⟩

/-- C4 (amended): the claimed invariant holds only away from the loophole the
counterexample exhibits.  For Opts accepted by `New` whose owner comes from a
token, the created event pairs its permission kind with a user or app owner;
and for Opts accepted by `NewInternal` whose `RawOwner` is not fully
specified (at least one of Type and Name empty), the created event pairs its
internal kind with an internal owner.  A `RawOwner` with only one of
Type/Name set passes `New`'s validation but yields an internal owner on a
permission-kind event, and a fully-specified user/app `RawOwner` through
`NewInternal` yields a user/app owner on an internal-kind event. -/
theorem owner_kind_pairing_amended :
    ∀ (info : ThrottlingInfo) (store : Store) (now : Time) (newId : String) (o : Opts)
      (evt : EventData) (store' : Store),
      (New info store now newId (some o) = (.ok evt, store') →
        ∀ tok, o.owner = some tok →
          evt.kind.type = KindTypePermission ∧
          (evt.owner.type = OwnerTypeApp ∨ evt.owner.type = OwnerTypeUser)) ∧
      (NewInternal info store now newId (some o) = (.ok evt, store') →
        (o.rawOwner.name = "" ∨ o.rawOwner.type = "") →
        evt.kind.type = KindTypeInternal ∧ evt.owner.type = OwnerTypeInternal) := by
  intro info store now newId o evt store'
  constructor
  · intro h tok htok
    simp only [New] at h
    split at h
    · simp at h
    · split at h
      · simp at h
      · rename_i hownerchk hkindchk
        obtain ⟨k, hk, hevt⟩ := newEvt_ok_shape h
        have hkindSome : ∃ ps, o.kind = some ps := by
          cases hx : o.kind with
          | none => rw [hx] at hkindchk; simp at hkindchk
          | some ps => exact ⟨ps, rfl⟩
        obtain ⟨ps, hps⟩ := hkindSome
        have hkk : k = ⟨KindTypePermission, ps.fullName⟩ := by
          simp [resolveKind, hps] at hk
          exact hk.symm
        subst hevt
        subst hkk
        refine ⟨by simp [draftEvent], ?_⟩
        have : (draftEvent o ⟨KindTypePermission, ps.fullName⟩ (resolveOwner o) now newId).owner =
            resolveOwner o := by simp [draftEvent]
        rw [this, resolveOwner, htok]
        cases hb : tok.isAppToken <;> simp [hb]
  · intro h hraw
    simp only [NewInternal] at h
    split at h
    · simp at h
    · split at h
      · simp at h
      · split at h
        · simp at h
        · rename_i hownerchk hkindchk hikchk
          obtain ⟨k, hk, hevt⟩ := newEvt_ok_shape h
          have howner' : o.owner = none := by
            cases hx : o.owner with
            | none => rfl
            | some t => rw [hx] at hownerchk; simp at hownerchk
          have hkind' : o.kind = none := by
            cases hx : o.kind with
            | none => rfl
            | some t => rw [hx] at hkindchk; simp at hkindchk
          have hik' : (o.internalKind == "") = false := by
            revert hikchk
            cases o.internalKind == "" <;> simp
          have hkk : k = ⟨KindTypeInternal, o.internalKind⟩ := by
            simp [resolveKind, hkind', hik'] at hk
            exact hk.symm
          subst hevt
          subst hkk
          refine ⟨by simp [draftEvent], ?_⟩
          have : (draftEvent o ⟨KindTypeInternal, o.internalKind⟩ (resolveOwner o) now
              newId).owner = resolveOwner o := by simp [draftEvent]
          rw [this, resolveOwner, howner']
          have hfalse : (o.rawOwner.name != "" && o.rawOwner.type != "") = false := by
            rcases hraw with h1 | h1 <;> simp [h1]
          rw [hfalse]
          simp

/-- C4 (witness): instantiation of the amended pairing theorem on a `New`
call with a user token against the empty store. -/
theorem owner_kind_pairing_amended_witness :
    ({ id := .target ⟨"app", "w"⟩, uniqueID := "w1", target := ⟨"app", "w"⟩, startTime := 5,
       kind := ⟨KindTypePermission, "app.deploy"⟩, owner := ⟨OwnerTypeUser, "alice"⟩,
       running := true, lockUpdateTime := 5 } : EventData).kind.type = KindTypePermission ∧
    (({ id := .target ⟨"app", "w"⟩, uniqueID := "w1", target := ⟨"app", "w"⟩, startTime := 5,
        kind := ⟨KindTypePermission, "app.deploy"⟩, owner := ⟨OwnerTypeUser, "alice"⟩,
        running := true, lockUpdateTime := 5 } : EventData).owner.type = OwnerTypeApp ∨
     ({ id := .target ⟨"app", "w"⟩, uniqueID := "w1", target := ⟨"app", "w"⟩, startTime := 5,
        kind := ⟨KindTypePermission, "app.deploy"⟩, owner := ⟨OwnerTypeUser, "alice"⟩,
        running := true, lockUpdateTime := 5 } : EventData).owner.type = OwnerTypeUser) :=
  (owner_kind_pairing_amended [] [] 5 "w1"
      { target := ⟨"app", "w"⟩, kind := some ⟨"app.deploy"⟩,
        owner := some { isAppToken := false, appName := "", userName := "alice" } }
      _ _).1 rfl
    { isAppToken := false, appName := "", userName := "alice" } rfl

/-- C2: when the insert hits a duplicate-key conflict and the existing
holder's `lockUpdateTime` is not older than `lockExpireTimeout`, `newEvt`
fails with `EventLocked` carrying a snapshot of the current holder's live
row (hence the snapshot's uniqueId is the holder's uniqueId), the store is
unchanged, and the error is produced by the bounded loop after its single
retry opportunity. -/
theorem newEvt_locked_when_holder_fresh :
    ∀ (pre post : Store) (holder : EventData) (now : Time) (newId : String) (o : Opts)
      (k : Kind),
      o.target.isValid = true →
      resolveKind o = some k →
      holder.id = .target o.target →
      (∀ r ∈ pre, r.id ≠ .target o.target) →
      ¬ holder.lockUpdateTime + lockExpireTimeout < now →
      newEvt [] (pre ++ holder :: post) now newId (some o) =
        (.error (.eventLocked holder), pre ++ holder :: post) := by
  intro pre post holder now newId o k hval hk hid hpre hfresh
  have hpredb : ∀ r ∈ pre, (r.id == EventId.target o.target) = false := by
    intro r hr
    simp [hpre r hr]
  have hfind : findId (pre ++ holder :: post) (.target o.target) = some holder :=
    find_middle _ _ _ _ hpredb (by simp [hid])
  have hhas : hasId (pre ++ holder :: post) (.target o.target) = true :=
    any_middle _ _ _ _ (by simp [hid])
  have hdraftid : (draftEvent o k (resolveOwner o) now newId).id = .target o.target := rfl
  have hstep : newEvt [] (pre ++ holder :: post) now newId (some o) =
      insertLoop (pre ++ holder :: post) now (draftEvent o k (resolveOwner o) now newId) := by
    simp only [newEvt, hval, Bool.not_true, Bool.false_eq_true, if_false, hk]
    rfl
  have hche : checkIsExpired (pre ++ holder :: post) now (.target o.target) =
      (false, pre ++ holder :: post) := by
    unfold checkIsExpired
    rw [hfind]
    simp [hfresh]
  rw [hstep]
  unfold insertLoop
  rw [hdraftid, hhas]
  simp only [if_true]
  rw [hche]
  unfold insertRetry
  rw [hdraftid, hhas, hfind]
  simp

def lockedHolder : EventData :=
  { id := .target ⟨"app", "x"⟩, uniqueID := "hold", target := ⟨"app", "x"⟩,
    running := true, lockUpdateTime := 200 }

def lockedOpts : Opts :=
  { target := ⟨"app", "x"⟩, kind := some ⟨"k"⟩, owner := some { userName := "alice" } }

/-- C2 (witness): concrete conflict against a holder refreshed at time 200,
attempted at time 400 (within the 300-unit expiry), yields `EventLocked`
with the holder snapshot. -/
theorem newEvt_locked_when_holder_fresh_witness :
    newEvt [] [lockedHolder] 400 "n1" (some lockedOpts) =
      (.error (.eventLocked lockedHolder), [lockedHolder]) :=
  newEvt_locked_when_holder_fresh [] [] lockedHolder 400 "n1" lockedOpts
    ⟨KindTypePermission, "k"⟩ rfl rfl rfl (by simp) (by decide)

/-- C6: the throttling spec is looked up kind-scoped-first (key
`targetName_kindName`), falling back to the target-scoped key, with no
throttling otherwise; and when the applicable spec's window already holds at
least `Max` events for the target (restricted to the spec's kind when
kind-scoped), creation fails with `Throttled` carrying that spec and target
and inserts nothing (the store is returned unchanged). -/
theorem throttling_lookup_and_admission :
    (∀ (info : ThrottlingInfo) (t : Target) (k : Kind) (s : ThrottlingSpec),
       mapLookup info (t.name ++ "_" ++ k.name) = some s → getThrottling info t k = some s) ∧
    (∀ (info : ThrottlingInfo) (t : Target) (k : Kind),
       mapLookup info (t.name ++ "_" ++ k.name) = none →
       getThrottling info t k = mapLookup info t.name) ∧
    (∀ (info : ThrottlingInfo) (store : Store) (now : Time) (newId : String) (o : Opts)
       (k : Kind) (s : ThrottlingSpec),
       o.target.isValid = true → resolveKind o = some k →
       getThrottling info o.target k = some s →
       0 < s.max → 0 < s.time →
       s.max ≤ (throttleCount store o.target s now : Int) →
       newEvt info store now newId (some o) = (.error (.throttled s o.target), store)) := by
  refine ⟨?_, ?_, ?_⟩
  · intro info t k s h
    unfold getThrottling
    rw [h]
  · intro info t k h
    unfold getThrottling
    rw [h]
  · intro info store now newId o k s hval hk hspec hmax htime hcount
    have hcond : (decide (s.max > 0) && decide (s.time > 0) &&
        decide (s.max ≤ (throttleCount store o.target s now : Int))) = true := by
      simp [hmax, htime, hcount]
    simp only [newEvt, hval, Bool.not_true, Bool.false_eq_true, if_false, hk, hspec, hcond,
      if_true]

def throttleSpecW : ThrottlingSpec := ⟨"app", "", 1, 10⟩

def throttlePrev : EventData :=
  { id := .objId "h1", uniqueID := "h1", target := ⟨"app", "a"⟩, startTime := 95 }

def throttleOpts : Opts :=
  { target := ⟨"app", "a"⟩, kind := some ⟨"k"⟩, owner := some { userName := "alice" } }

/-- C6 (witness): with a target-scoped spec of max 1 per 10 time units and
one prior event inside the window, a creation at time 100 is throttled and
the store is unchanged. -/
theorem throttling_lookup_and_admission_witness :
    newEvt (SetThrottling [] throttleSpecW) [throttlePrev] 100 "n2" (some throttleOpts) =
      (.error (.throttled throttleSpecW ⟨"app", "a"⟩), [throttlePrev]) :=
  throttling_lookup_and_admission.2.2 (SetThrottling [] throttleSpecW) [throttlePrev] 100 "n2"
    throttleOpts ⟨KindTypePermission, "k"⟩ throttleSpecW rfl rfl rfl (by decide) (by decide)
    (by decide)

/-- Historical twin left behind when a stale live event is finalized by
`checkIsExpired`: the stale row finalized with the expiry error, keyed by its
own uniqueId (an empty log buffer, no end custom data, and `otherCustomData`
re-read from the row itself). -/
def expiredTwin (stale : EventData) (now : Time) : EventData :=
  { stale with
      id := .objId stale.uniqueID
      error := expiredErrorMsg (now - stale.lockUpdateTime)
      endTime := some now
      endCustomData := none
      running := false
      log := "" }

/-- C1: for a target whose live event's `lockUpdateTime` is older than
`now - lockExpireTimeout`, a subsequent creation succeeds: the stale event
is finalized on the dead holder's behalf with the "event expired, no update
for ..." error — removing the live lock row and writing a historical twin
keyed by the stale event's uniqueId — and the insert is retried once,
returning a fresh running event to the caller. -/
theorem newEvt_reclaims_expired_lock :
    ∀ (pre post : Store) (stale : EventData) (now : Time) (newId : String) (o : Opts)
      (k : Kind),
      o.target.isValid = true →
      resolveKind o = some k →
      stale.id = .target o.target →
      (∀ r ∈ pre, r.id ≠ .target o.target) →
      (∀ r ∈ post, r.id ≠ .target o.target) →
      (∀ r ∈ pre, r.id ≠ .objId stale.uniqueID) →
      (∀ r ∈ post, r.id ≠ .objId stale.uniqueID) →
      stale.lockUpdateTime + lockExpireTimeout < now →
      newEvt [] (pre ++ stale :: post) now newId (some o) =
        (.ok (draftEvent o k (resolveOwner o) now newId),
         (pre ++ post) ++ [expiredTwin stale now, draftEvent o k (resolveOwner o) now newId]) ∧
      (expiredTwin stale now).id = .objId stale.uniqueID ∧
      (expiredTwin stale now).uniqueID = stale.uniqueID ∧
      (expiredTwin stale now).running = false ∧
      (expiredTwin stale now).error = expiredErrorMsg (now - stale.lockUpdateTime) ∧
      (draftEvent o k (resolveOwner o) now newId).running = true ∧
      (draftEvent o k (resolveOwner o) now newId).uniqueID = newId := by
  intro pre post stale now newId o k hval hk hid hpre hpost hpreu hpostu hexp
  have hpredb : ∀ r ∈ pre, (r.id == EventId.target o.target) = false := by
    intro r hr
    simp [hpre r hr]
  have hfind : findId (pre ++ stale :: post) (.target o.target) = some stale :=
    find_middle _ _ _ _ hpredb (by simp [hid])
  have hhas : hasId (pre ++ stale :: post) (.target o.target) = true :=
    any_middle _ _ _ _ (by simp [hid])
  have hdraftid : (draftEvent o k (resolveOwner o) now newId).id = .target o.target := rfl
  have htwinid : (expiredTwin stale now).id = .objId stale.uniqueID := rfl
  have hstep : newEvt [] (pre ++ stale :: post) now newId (some o) =
      insertLoop (pre ++ stale :: post) now (draftEvent o k (resolveOwner o) now newId) := by
    simp only [newEvt, hval, Bool.not_true, Bool.false_eq_true, if_false, hk]
    rfl
  have hdfinal : doneFinal ⟨stale, ""⟩ (some (expiredErrorMsg (now - stale.lockUpdateTime)))
      none (pre ++ stale :: post) now = expiredTwin stale now := by
    unfold doneFinal expiredTwin
    simp [hid, hfind]
  have hnouid : hasId (pre ++ stale :: post) (.objId stale.uniqueID) = false := by
    apply any_none
    intro r hr
    rcases List.mem_append.mp hr with h1 | h2
    · simp [hpreu r h1]
    · rcases List.mem_cons.mp h2 with rfl | h3
      · simp [hid]
      · simp [hpostu r h3]
  have hstore1 : (Event.Done ⟨stale, ""⟩ (some (expiredErrorMsg (now - stale.lockUpdateTime)))
      (pre ++ stale :: post) now).2 = pre ++ (post ++ [expiredTwin stale now]) := by
    unfold Event.Done done
    simp only []
    unfold doneOps applyOps
    simp only [Bool.false_eq_true, if_false, List.foldl_cons, List.foldl_nil]
    rw [hdfinal]
    have h1 : applyOp (pre ++ stale :: post) (.insertOp (expiredTwin stale now)) =
        pre ++ stale :: (post ++ [expiredTwin stale now]) := by
      simp only [applyOp]
      rw [htwinid, hnouid]
      simp
    rw [h1]
    simp only [applyOp]
    simp only [hid]
    exact eraseP_middle _ _ _ _ hpredb (by simp [hid])
  have hhas1 : hasId (pre ++ (post ++ [expiredTwin stale now])) (.target o.target) = false := by
    apply any_none
    intro r hr
    rcases List.mem_append.mp hr with h1 | h2
    · simp [hpre r h1]
    · rcases List.mem_append.mp h2 with h3 | h4
      · simp [hpost r h3]
      · rw [List.mem_singleton.mp h4]
        simp [htwinid]
  refine ⟨?_, rfl, rfl, rfl, rfl, rfl, rfl⟩
  rw [hstep]
  unfold insertLoop
  rw [hdraftid, hhas]
  simp only [if_true]
  have hche2 : (checkIsExpired (pre ++ stale :: post) now (.target o.target)).2 =
      pre ++ (post ++ [expiredTwin stale now]) := by
    unfold checkIsExpired
    rw [hfind]
    simp only [hexp, if_true]
    exact hstore1
  rw [hche2]
  unfold insertRetry
  rw [hdraftid, hhas1]
  simp [List.append_assoc]

def expiredStale : EventData :=
  { id := .target ⟨"app", "x"⟩, uniqueID := "u0", target := ⟨"app", "x"⟩,
    running := true, lockUpdateTime := 10 }

def reclaimOpts : Opts :=
  { target := ⟨"app", "x"⟩, kind := some ⟨"k"⟩, owner := some { userName := "alice" } }

/-- C1 (witness): a holder last refreshed at time 10 is reclaimed by a
creation at time 400 (beyond the 300-unit expiry): the store afterwards
holds the historical twin plus the fresh running event. -/
theorem newEvt_reclaims_expired_lock_witness :
    newEvt [] [expiredStale] 400 "u1" (some reclaimOpts) =
      (.ok (draftEvent reclaimOpts ⟨KindTypePermission, "k"⟩ (resolveOwner reclaimOpts) 400 "u1"),
       [expiredTwin expiredStale 400,
        draftEvent reclaimOpts ⟨KindTypePermission, "k"⟩ (resolveOwner reclaimOpts) 400 "u1"]) :=
  (newEvt_reclaims_expired_lock [] [] expiredStale 400 "u1" reclaimOpts
      ⟨KindTypePermission, "k"⟩ rfl rfl rfl (by simp) (by simp) (by simp) (by simp)
      (by decide)).1

/-- C3: after a successful `Done(err)` on a running event, the store contains
a historical row keyed by `id = uniqueId` with `running = false`, `endTime`
set to the finalization time, `log` equal to the frozen log buffer, `error`
equal to the supplied error when present, else "canceled by user request"
when the cancel flag is set, else empty; the live row keyed by the target is
removed; the insert of the historical row happens before the removal of the
live row (the operation trace is insert-then-remove); and `uniqueId` is
unchanged across the transition. -/
theorem done_swaps_live_for_historical :
    ∀ (e : Event) (err : Option String) (pre post : Store) (live : EventData)
      (t : Target) (now : Time),
      e.eventData.id = .target t →
      e.eventData.error = "" →
      live.id = .target t →
      (∀ r ∈ pre, r.id ≠ .target t) →
      (∀ r ∈ post, r.id ≠ .target t) →
      (∀ r ∈ pre ++ live :: post, r.id ≠ .objId e.eventData.uniqueID) →
      (e.Done err (pre ++ live :: post) now).1 = .ok () ∧
      (e.Done err (pre ++ live :: post) now).2 =
        (pre ++ post) ++ [doneFinal e err none (pre ++ live :: post) now] ∧
      (doneFinal e err none (pre ++ live :: post) now).id = .objId e.eventData.uniqueID ∧
      (doneFinal e err none (pre ++ live :: post) now).uniqueID = e.eventData.uniqueID ∧
      (doneFinal e err none (pre ++ live :: post) now).running = false ∧
      (doneFinal e err none (pre ++ live :: post) now).endTime = some now ∧
      (doneFinal e err none (pre ++ live :: post) now).log = e.logBuffer ∧
      (doneFinal e err none (pre ++ live :: post) now).error =
        (match err with
         | some msg => msg
         | none => if e.eventData.cancelInfo.canceled then "canceled by user request"
                   else "") ∧
      (∀ r ∈ (e.Done err (pre ++ live :: post) now).2, r.id ≠ .target t) ∧
      doneOps e err none false (pre ++ live :: post) now =
        [.insertOp (doneFinal e err none (pre ++ live :: post) now),
         .removeIdOp (.target t)] := by
  intro e err pre post live t now hide hErr0 hlive hpre hpost huid
  have hpredb : ∀ r ∈ pre, (r.id == EventId.target t) = false := by
    intro r hr
    simp [hpre r hr]
  have hfid : (doneFinal e err none (pre ++ live :: post) now).id =
      .objId e.eventData.uniqueID := rfl
  have hnouid : hasId (pre ++ live :: post) (.objId e.eventData.uniqueID) = false := by
    apply any_none
    intro r hr
    simp [huid r hr]
  have hres : (e.Done err (pre ++ live :: post) now).1 = .ok () := by
    unfold Event.Done done doneRes
    simp only [Bool.false_eq_true, if_false, hnouid]
  have hstore : (e.Done err (pre ++ live :: post) now).2 =
      (pre ++ post) ++ [doneFinal e err none (pre ++ live :: post) now] := by
    unfold Event.Done done
    simp only []
    unfold doneOps applyOps
    simp only [Bool.false_eq_true, if_false, List.foldl_cons, List.foldl_nil]
    have h1 : applyOp (pre ++ live :: post)
        (.insertOp (doneFinal e err none (pre ++ live :: post) now)) =
        pre ++ live :: (post ++ [doneFinal e err none (pre ++ live :: post) now]) := by
      simp only [applyOp]
      rw [hfid, hnouid]
      simp
    rw [h1]
    simp only [applyOp]
    simp only [hide]
    rw [eraseP_middle _ _ _ _ hpredb (by simp [hlive])]
    simp [List.append_assoc]
  have hops : doneOps e err none false (pre ++ live :: post) now =
      [.insertOp (doneFinal e err none (pre ++ live :: post) now),
       .removeIdOp (.target t)] := by
    unfold doneOps
    simp [hide]
  refine ⟨hres, hstore, rfl, rfl, rfl, rfl, rfl, ?_, ?_, hops⟩
  · cases err with
    | some msg => rfl
    | none => simp [doneFinal, hErr0]
  · rw [hstore]
    intro r hr
    rcases List.mem_append.mp hr with h1 | h2
    · rcases List.mem_append.mp h1 with h3 | h4
      · exact hpre r h3
      · exact hpost r h4
    · rw [List.mem_singleton.mp h2, hfid]
      simp

def doneLiveW : EventData :=
  { id := .target ⟨"app", "a"⟩, uniqueID := "u", target := ⟨"app", "a"⟩, running := true }

def doneEvtW : Event := { eventData := doneLiveW, logBuffer := "step 1\n" }

/-- C3 (witness): finalizing a concrete running event at time 77 succeeds,
swaps the live row for the historical twin, and leaves an empty error. -/
theorem done_swaps_live_for_historical_witness :
    (doneEvtW.Done none ([] ++ doneLiveW :: []) 77).1 = .ok () ∧
    (doneEvtW.Done none ([] ++ doneLiveW :: []) 77).2 =
      ([] ++ []) ++ [doneFinal doneEvtW none none ([] ++ doneLiveW :: []) 77] ∧
    (doneFinal doneEvtW none none ([] ++ doneLiveW :: []) 77).error = "" ∧
    (doneFinal doneEvtW none none ([] ++ doneLiveW :: []) 77).log = "step 1\n" :=
  have H := done_swaps_live_for_historical doneEvtW none [] [] doneLiveW ⟨"app", "a"⟩ 77
    rfl rfl rfl (by simp) (by simp) (by decide)
  ⟨H.1, H.2.1, H.2.2.2.2.2.2.2.1, H.2.2.2.2.2.2.1⟩

/-- C7: `AckCancel` fails with `NotCancelable` when the handle is not
cancelable or not running; otherwise it atomically (find-and-modify) sets
`cancelInfo.ackTime = now` and `cancelInfo.canceled = true` only on a live
row that already has `cancelInfo.asked = true`, and fails with
`EventNotFound` when no such row exists — in particular when the event's
`cancelInfo.asked` is false. -/
theorem ackCancel_spec :
    (∀ (e : Event) (store : Store) (now : Time),
       (e.eventData.cancelable = false ∨ e.eventData.running = false) →
       AckCancel e store now = (.error ErrNotCancelable, store)) ∧
    (∀ (e : Event) (pre post : Store) (row : EventData) (now : Time),
       e.eventData.cancelable = true → e.eventData.running = true →
       (∀ r ∈ pre, ¬(r.id = e.eventData.id ∧ r.cancelInfo.asked = true)) →
       row.id = e.eventData.id → row.cancelInfo.asked = true →
       AckCancel e (pre ++ row :: post) now =
         (.ok { row with cancelInfo :=
                  { row.cancelInfo with ackTime := now, canceled := true } },
          pre ++ { row with cancelInfo :=
                  { row.cancelInfo with ackTime := now, canceled := true } } :: post)) ∧
    (∀ (e : Event) (store : Store) (now : Time),
       e.eventData.cancelable = true → e.eventData.running = true →
       (∀ r ∈ store, r.id = e.eventData.id → r.cancelInfo.asked = false) →
       AckCancel e store now = (.error ErrEventNotFound, store)) := by
  refine ⟨?_, ?_, ?_⟩
  · intro e store now h
    have hcond : (!e.eventData.cancelable || !e.eventData.running) = true := by
      rcases h with h | h <;> simp [h]
    unfold AckCancel
    rw [hcond]
    simp
  · intro e pre post row now hc hr hpre hrow hasked
    have hcond : (!e.eventData.cancelable || !e.eventData.running) = false := by
      simp [hc, hr]
    have hpredb : ∀ r ∈ pre,
        (r.id == e.eventData.id && r.cancelInfo.asked) = false := by
      intro r hmem
      have hn := hpre r hmem
      by_cases h1 : r.id = e.eventData.id
      · have h2 : r.cancelInfo.asked = false := by
          cases hx : r.cancelInfo.asked
          · rfl
          · exact absurd ⟨h1, hx⟩ hn
        simp [h2]
      · simp [h1]
    have hrowdb : (row.id == e.eventData.id && row.cancelInfo.asked) = true := by
      simp [hrow, hasked]
    have hfind : (pre ++ row :: post).find?
        (fun r => r.id == e.eventData.id && r.cancelInfo.asked) = some row :=
      find_middle _ _ _ _ hpredb hrowdb
    unfold AckCancel
    rw [hcond]
    simp only [Bool.false_eq_true, if_false, hfind]
    rw [updateFirst_middle _ _ _ _ _ hpredb hrowdb]
  · intro e store now hc hr hnone
    have hcond : (!e.eventData.cancelable || !e.eventData.running) = false := by
      simp [hc, hr]
    have hfind : store.find?
        (fun r => r.id == e.eventData.id && r.cancelInfo.asked) = none := by
      rw [List.find?_eq_none]
      intro r hmem
      by_cases h1 : r.id = e.eventData.id
      · simp [hnone r hmem h1]
      · simp [h1]
    unfold AckCancel
    rw [hcond]
    simp only [Bool.false_eq_true, if_false, hfind]

def ackRowAsked : EventData :=
  { id := .target ⟨"app", "c"⟩, uniqueID := "uc", target := ⟨"app", "c"⟩,
    running := true, cancelable := true,
    cancelInfo := { owner := "bob", reason := "slow", startTime := 3, asked := true } }

def ackRowNotAsked : EventData :=
  { id := .target ⟨"app", "c"⟩, uniqueID := "uc", target := ⟨"app", "c"⟩,
    running := true, cancelable := true }

/-- C7 (witness): concrete instantiations — a non-cancelable handle is
refused, an asked live row is acknowledged in place, and a live row with
`asked = false` yields `EventNotFound`. -/
theorem ackCancel_spec_witness :
    AckCancel { eventData := ackRowNotAsked, logBuffer := "" } [ackRowNotAsked] 9 =
      (.error ErrEventNotFound, [ackRowNotAsked]) ∧
    AckCancel { eventData := ackRowAsked, logBuffer := "" } ([] ++ ackRowAsked :: []) 9 =
      (.ok { ackRowAsked with cancelInfo :=
               { ackRowAsked.cancelInfo with ackTime := 9, canceled := true } },
       [] ++ { ackRowAsked with cancelInfo :=
               { ackRowAsked.cancelInfo with ackTime := 9, canceled := true } } :: []) ∧
    AckCancel { eventData := { ackRowAsked with cancelable := false }, logBuffer := "" }
        [ackRowAsked] 9 = (.error ErrNotCancelable, [ackRowAsked]) :=
  ⟨ackCancel_spec.2.2 { eventData := ackRowNotAsked, logBuffer := "" } [ackRowNotAsked] 9
      rfl rfl (by decide),
   ackCancel_spec.2.1 { eventData := ackRowAsked, logBuffer := "" } [] [] ackRowAsked 9
      rfl rfl (by simp) rfl rfl,
   ackCancel_spec.1 { eventData := { ackRowAsked with cancelable := false }, logBuffer := "" }
      [ackRowAsked] 9 (Or.inl rfl)⟩

instance : IsTotal EventData startTimeDesc :=
  ⟨fun a b => Nat.le_total b.startTime a.startTime⟩

instance : IsTrans EventData startTimeDesc :=
  ⟨fun _ _ _ hab hbc => Nat.le_trans hbc hab⟩

theorem mem_applySort {r : EventData} {s : String} {l : List EventData} :
    r ∈ applySort s l ↔ r ∈ l := by
  unfold applySort
  split
  · exact List.mem_insertionSort _
  · split
    · exact List.mem_insertionSort _
    · exact Iff.rfl

theorem sorted_applySkip {skip : Int} {l : List EventData}
    (h : l.Sorted startTimeDesc) : (applySkip skip l).Sorted startTimeDesc := by
  unfold applySkip
  split
  · exact List.Pairwise.sublist (List.drop_sublist _ _) h
  · exact h

theorem sorted_applyLimit {limit : Int} {l : List EventData}
    (h : l.Sorted startTimeDesc) : (applyLimit limit l).Sorted startTimeDesc := by
  unfold applyLimit
  split
  · exact List.Pairwise.sublist (List.take_sublist _ _) h
  · exact h

theorem runFind_sorted (store : Store) (p : FindParams) (hs : p.sort = "-starttime") :
    (runFind store p).Sorted startTimeDesc := by
  unfold runFind
  apply sorted_applyLimit
  apply sorted_applySkip
  rw [hs]
  unfold applySort
  rw [if_pos rfl]
  exact List.sorted_insertionSort startTimeDesc _

theorem mapLookup_applyRaw_some {m : QueryMap} {base : QueryMap} {k : String} {v : QueryVal}
    (hnd : (m.map Prod.fst).Nodup) (hmem : (k, v) ∈ m) :
    mapLookup (applyRaw (some m) base) k = some v :=
  mapLookup_foldl_mset_mem _ _ _ _ hnd hmem

/-- C8: `List` applies the default limit 100 when the filter is nil or its
Limit is unset (zero), and the default sort "-starttime" (start time
descending) when Sort is unset — with that default the returned slice is
sorted by start time descending; and every entry of the filter's Raw map
overwrites any synthesized query key with the same name in the built
query. -/
theorem list_defaults_and_raw_overwrite :
    (buildFind none).limit = 100 ∧
    (buildFind none).sort = "-starttime" ∧
    (∀ f : Filter, f.limit = 0 → (buildFind (some f)).limit = 100) ∧
    (∀ f : Filter, f.sort = "" → (buildFind (some f)).sort = "-starttime") ∧
    (∀ store : Store, (ListEvents store none).Sorted startTimeDesc) ∧
    (∀ (store : Store) (f : Filter), f.sort = "" →
       (ListEvents store (some f)).Sorted startTimeDesc) ∧
    (∀ (f : Filter) (m : QueryMap) (k : String) (v : QueryVal),
       f.raw = some m → (m.map Prod.fst).Nodup → (k, v) ∈ m →
       mapLookup f.toQuery k = some v) := by
  refine ⟨rfl, rfl, ?_, ?_, ?_, ?_, ?_⟩
  · intro f h
    simp [buildFind, h]
  · intro f h
    simp [buildFind, h]
  · intro store
    exact runFind_sorted store _ rfl
  · intro store f h
    exact runFind_sorted store _ (by simp [buildFind, h])
  · intro f m k v hraw hnd hmem
    unfold Filter.toQuery
    rw [hraw]
    exact mapLookup_applyRaw_some hnd hmem

def rawFilterW : Filter :=
  { target := ⟨"app", "x"⟩, raw := some [("target.name", .str "other")] }

/-- C8 (witness): the defaults on an all-default filter, and a Raw entry
overwriting the synthesized `target.name` key. -/
theorem list_defaults_and_raw_overwrite_witness :
    (buildFind (some {})).limit = 100 ∧
    (buildFind (some {})).sort = "-starttime" ∧
    mapLookup rawFilterW.toQuery "target.name" = some (.str "other") :=
  ⟨list_defaults_and_raw_overwrite.2.2.1 {} rfl,
   list_defaults_and_raw_overwrite.2.2.2.1 {} rfl,
   list_defaults_and_raw_overwrite.2.2.2.2.2.2 rawFilterW [("target.name", .str "other")]
     "target.name" (.str "other") rfl (by simp) (by simp)⟩

theorem listEvents_neg_limit (store : Store) (f : Filter) (h : f.limit < 0) :
    ListEvents store (some f) =
      applySkip (if f.skip > 0 then f.skip else 0)
        (applySort (if f.sort != "" then f.sort else "-starttime")
          (store.filter (fun r => matchesQuery (some f.toQuery) r))) := by
  have hne : (f.limit != 0) = true := by
    simp only [bne_iff_ne, ne_eq]
    omega
  unfold ListEvents runFind buildFind
  simp only [hne, if_true]
  unfold applyLimit
  rw [if_neg (by omega)]

/-- C10: for every Filter whose Limit is negative, `List` applies no limit at
all — the find keeps the negative limit, no take is performed, and every
matching event is returned subject only to skip and sort; the default limit
of 100 applies only when Limit is exactly zero. -/
theorem list_negative_limit_unbounded :
    (∀ f : Filter, f.limit < 0 → (buildFind (some f)).limit = f.limit) ∧
    (∀ (store : Store) (f : Filter), f.limit < 0 →
       ListEvents store (some f) =
         applySkip (if f.skip > 0 then f.skip else 0)
           (applySort (if f.sort != "" then f.sort else "-starttime")
             (store.filter (fun r => matchesQuery (some f.toQuery) r)))) ∧
    (∀ (store : Store) (f : Filter), f.limit < 0 → f.skip ≤ 0 →
       ∀ r ∈ store, matchesQuery (some f.toQuery) r = true →
         r ∈ ListEvents store (some f)) ∧
    (∀ f : Filter, f.limit ≠ 0 → (buildFind (some f)).limit = f.limit) := by
  refine ⟨?_, ?_, ?_, ?_⟩
  · intro f h
    have hne : (f.limit != 0) = true := by
      simp only [bne_iff_ne, ne_eq]
      omega
    simp [buildFind, hne]
  · intro store f h
    exact listEvents_neg_limit store f h
  · intro store f h hskip r hr hmatch
    rw [listEvents_neg_limit store f h]
    rw [if_neg (by omega)]
    unfold applySkip
    rw [if_neg (by omega)]
    rw [mem_applySort]
    exact List.mem_filter.mpr ⟨hr, hmatch⟩
  · intro f h
    have hne : (f.limit != 0) = true := by
      simp only [bne_iff_ne, ne_eq]
      exact h
    simp [buildFind, hne]

def negLimitRow1 : EventData :=
  { id := .objId "r1", uniqueID := "r1", startTime := 1 }

def negLimitRow2 : EventData :=
  { id := .objId "r2", uniqueID := "r2", startTime := 2 }

/-- C10 (witness): with `Limit = -1` both matching rows are returned (here:
membership of the second row, which a positive limit of 1 would cut off). -/
theorem list_negative_limit_unbounded_witness :
    negLimitRow2 ∈ ListEvents [negLimitRow1, negLimitRow2] (some { limit := -1 }) :=
  list_negative_limit_unbounded.2.2.1 [negLimitRow1, negLimitRow2] { limit := -1 }
    (by decide) (by decide) negLimitRow2 (by simp) (by decide)

end Tsuru
